import Mathlib

/-!
Shallow embedding of the moltbot session-routing core: session-key
resolution, route resolution, session-store handlers, model selection,
host-env sanitisation, cron scheduling, and the block-reply delivery
chain, together with theorems checking the natural-language spec.

JavaScript strings are modelled as Lean strings; `trim`, `toLowerCase`,
`toUpperCase` are modelled over ASCII (the repository only feeds ASCII
identifiers through these paths).  Machine numbers are modelled as `Int`
(all the arithmetic involved is integer-valued millisecond timestamps).
-/

namespace Moltbot

/-- JS whitespace as used by String.prototype.trim (ASCII subset). -/
def isJsSpace (c : Char) : Bool :=
  c = ' ' || c = '\t' || c = '\n' || c = '\r' || c = '\x0B' || c = '\x0C'

/-- Trim JS-style from both ends of a char list. -/
def trimChars (l : List Char) : List Char :=
  ((l.dropWhile isJsSpace).reverse.dropWhile isJsSpace).reverse

/-- Model of JS String.prototype.trim. -/
def jsTrim (s : String) : String := String.mk (trimChars s.data)

/-- Model of JS String.prototype.toLowerCase (ASCII). -/
def toLowerAscii (s : String) : String := String.mk (s.data.map Char.toLower)

/-- Model of JS String.prototype.toUpperCase (ASCII). -/
def toUpperAscii (s : String) : String := String.mk (s.data.map Char.toUpper)

def listPrefixCheck : List Char → List Char → Bool
  | [], _ => true
  | _ :: _, [] => false
  | a :: as, b :: bs => a = b && listPrefixCheck as bs

/-- Model of JS String.prototype.startsWith. -/
def strStartsWith (s pre : String) : Bool := listPrefixCheck pre.data s.data

/-! ## src/routing/session-key.ts -/

def DEFAULT_AGENT_ID : String := "main"
def DEFAULT_MAIN_KEY : String := "main"
def DEFAULT_ACCOUNT_ID : String := "default"

/-- normalizeMainKey from session-key.ts. -/
def normalizeMainKey (value : Option String) : String :=
  let trimmed := jsTrim (value.getD "")
  if trimmed.isEmpty then DEFAULT_MAIN_KEY else trimmed

def isAsciiAlphaNum (c : Char) : Bool :=
  ('a' ≤ c && c ≤ 'z') || ('A' ≤ c && c ≤ 'Z') || ('0' ≤ c && c ≤ '9')

/-- Character class of the regex tail [a-z0-9_-] with the i flag. -/
def isIdTailChar (c : Char) : Bool := isAsciiAlphaNum c || c = '_' || c = '-'

/-- The test of the case-insensitive regex of normalizeAgentId:
first char alphanumeric, up to 63 further chars in [a-z0-9_-]/i. -/
def idShapeTest : List Char → Bool
  | [] => false
  | c :: rest => isAsciiAlphaNum c && rest.all isIdTailChar && rest.length ≤ 63

/-- Character class [a-z0-9_-] (lowercase only), used after toLowerCase. -/
def isLowerIdChar (c : Char) : Bool :=
  ('a' ≤ c && c ≤ 'z') || ('0' ≤ c && c ≤ '9') || c = '_' || c = '-'

theorem length_dropWhile_le {α : Type} (p : α → Bool) (l : List α) :
    (l.dropWhile p).length ≤ l.length := by
  induction l with
  | nil => simp [List.dropWhile]
  | cons a as ih =>
    by_cases h : p a = true <;> simp [List.dropWhile, h] <;> omega

/-- Model of .replace(/[^a-z0-9_-]+/g, "-"): each maximal run of invalid
characters becomes a single dash. -/
def collapseInvalidRuns : List Char → List Char
  | [] => []
  | c :: rest =>
    if isLowerIdChar c then c :: collapseInvalidRuns rest
    else '-' :: collapseInvalidRuns (rest.dropWhile (fun d => !isLowerIdChar d))
termination_by l => l.length
decreasing_by
  all_goals simp [List.length_cons]
  have h := length_dropWhile_le (fun d => !isLowerIdChar d) rest
  omega

def dropDashesLeft (l : List Char) : List Char := l.dropWhile (fun c => c = '-')

def dropDashesRight (l : List Char) : List Char :=
  (l.reverse.dropWhile (fun c => c = '-')).reverse

/-- normalizeAgentId from session-key.ts: keep already well-shaped ids
as written (case-insensitive regex, returned untouched), otherwise
lowercase, collapse invalid runs to dashes, strip edge dashes, cut to 64,
and fall back to the default id. -/
def normalizeAgentId (value : Option String) : String :=
  let trimmed := trimChars (value.getD "").data
  if trimmed.isEmpty then DEFAULT_AGENT_ID
  else if idShapeTest trimmed then String.mk trimmed
  else
    let collapsed := collapseInvalidRuns (trimmed.map Char.toLower)
    let cleaned := (dropDashesRight (dropDashesLeft collapsed)).take 64
    if cleaned.isEmpty then DEFAULT_AGENT_ID else String.mk cleaned

/-- normalizeAccountId from session-key.ts (same shape, default account). -/
def normalizeAccountId (value : Option String) : String :=
  let trimmed := trimChars (value.getD "").data
  if trimmed.isEmpty then DEFAULT_ACCOUNT_ID
  else if idShapeTest trimmed then String.mk trimmed
  else
    let collapsed := collapseInvalidRuns (trimmed.map Char.toLower)
    let cleaned := (dropDashesRight (dropDashesLeft collapsed)).take 64
    if cleaned.isEmpty then DEFAULT_ACCOUNT_ID else String.mk cleaned

structure ParsedAgentSessionKey where
  agentId : String
  rest : String
deriving DecidableEq, Repr

/-- parseAgentSessionKey from session-key.ts. -/
def parseAgentSessionKey (sessionKey : Option String) : Option ParsedAgentSessionKey :=
  let raw := jsTrim (sessionKey.getD "")
  if raw.isEmpty then none
  else
    let parts := (raw.splitOn ":").filter (fun p => !p.isEmpty)
    if parts.length < 3 then none
    else
      match parts with
      | [] => none
      | p0 :: _ =>
        if p0 ≠ "agent" then none
        else
          let agentId := jsTrim ((parts.drop 1).headD "")
          let rest := String.intercalate ":" (parts.drop 2)
          if agentId.isEmpty || rest.isEmpty then none
          else some ⟨agentId, rest⟩

/-- isSubagentSessionKey from session-key.ts. -/
def isSubagentSessionKey (sessionKey : Option String) : Bool :=
  let raw := jsTrim (sessionKey.getD "")
  if raw.isEmpty then false
  else if strStartsWith (toLowerAscii raw) "subagent:" then true
  else
    match parseAgentSessionKey (some raw) with
    | some parsed => strStartsWith (toLowerAscii parsed.rest) "subagent:"
    | none => false

/-- buildAgentMainSessionKey from session-key.ts. -/
def buildAgentMainSessionKey (agentId : String) (mainKey : Option String) : String :=
  "agent:" ++ normalizeAgentId (some agentId) ++ ":" ++ normalizeMainKey mainKey

structure AgentPeerSessionKeyParams where
  agentId : String
  mainKey : Option String := none
  channel : String
  peerKind : Option String := none
  peerId : Option String := none
  dmScope : Option String := none

/-- Channel token resolution used inside buildAgentPeerSessionKey:
trim, lowercase, fall back to "unknown" when empty. -/
def resolveChannelToken (channel : String) : String :=
  let c := toLowerAscii (jsTrim channel)
  if c.isEmpty then "unknown" else c

/-- buildAgentPeerSessionKey from session-key.ts. -/
def buildAgentPeerSessionKey (p : AgentPeerSessionKeyParams) : String :=
  let peerKind := p.peerKind.getD "dm"
  if peerKind == "dm" then
    let dmScope := p.dmScope.getD "main"
    let peerId := jsTrim (p.peerId.getD "")
    if dmScope == "per-channel-peer" && !peerId.isEmpty then
      "agent:" ++ normalizeAgentId (some p.agentId) ++ ":" ++
        resolveChannelToken p.channel ++ ":dm:" ++ peerId
    else if dmScope == "per-peer" && !peerId.isEmpty then
      "agent:" ++ normalizeAgentId (some p.agentId) ++ ":dm:" ++ peerId
    else
      buildAgentMainSessionKey p.agentId p.mainKey
  else
    let peerId :=
      let q := jsTrim (p.peerId.getD "")
      if q.isEmpty then "unknown" else q
    "agent:" ++ normalizeAgentId (some p.agentId) ++ ":" ++
      resolveChannelToken p.channel ++ ":" ++ peerKind ++ ":" ++ peerId

/-! ## src/agents/model-selection.ts -/

structure ModelRef where
  provider : String
  model : String
deriving DecidableEq, Repr

/-- One configured entry under cfg.agent.models (only the alias field is
read by the code under verification). -/
structure ModelsEntry where
  aliasName : Option String := none

/-- cfg.agent.model: either a bare string or an object with a primary field. -/
inductive ConfigModel where
  | str (value : String)
  | obj (primary : Option String)

structure AgentConfig where
  models : Option (List (String × ModelsEntry)) := none
  model : Option ConfigModel := none

/-- The slice of ClawdbotConfig the embedded functions read. -/
structure ClawdbotConfig where
  agent : Option AgentConfig := none

structure ModelCatalogEntry where
  provider : String
  id : String
deriving DecidableEq, Repr

def normalizeAliasKey (value : String) : String := toLowerAscii (jsTrim value)

/-- modelKey from model-selection.ts. -/
def modelKey (provider model : String) : String := provider ++ "/" ++ model

/-- normalizeProviderId from model-selection.ts. -/
def normalizeProviderId (provider : String) : String :=
  let normalized := toLowerAscii (jsTrim provider)
  if normalized == "z.ai" || normalized == "z-ai" then "zai" else normalized

/-- Split at the first occurrence of a character (JS indexOf + slice). -/
def splitFirstChar (c : Char) : List Char → Option (List Char × List Char)
  | [] => none
  | x :: xs =>
    if x = c then some ([], xs)
    else (splitFirstChar c xs).map (fun q => (x :: q.1, q.2))

/-- parseModelRef from model-selection.ts. -/
def parseModelRef (raw : String) (defaultProvider : String) : Option ModelRef :=
  let trimmed := jsTrim raw
  if trimmed.isEmpty then none
  else
    match splitFirstChar '/' trimmed.data with
    | none => some ⟨normalizeProviderId defaultProvider, trimmed⟩
    | some (before, after) =>
      let provider := normalizeProviderId (jsTrim (String.mk before))
      let model := jsTrim (String.mk after)
      if provider.isEmpty || model.isEmpty then none
      else some ⟨provider, model⟩

/-- A JS Map is modelled as an association list with overwrite-on-set. -/
def mapSet {α : Type} (m : List (String × α)) (k : String) (v : α) : List (String × α) :=
  if m.any (fun e => e.1 == k) then
    m.map (fun e => if e.1 == k then (k, v) else e)
  else m ++ [(k, v)]

def mapGet {α : Type} (m : List (String × α)) (k : String) : Option α :=
  (m.find? (fun e => e.1 == k)).map (·.2)

structure ModelAliasIndex where
  byAlias : List (String × (String × ModelRef)) := []
  byKey : List (String × List String) := []

/-- buildModelAliasIndex from model-selection.ts. -/
def buildModelAliasIndex (cfg : ClawdbotConfig) (defaultProvider : String) : ModelAliasIndex :=
  let rawModels := ((cfg.agent.map (·.models)).join).getD []
  rawModels.foldl
    (fun idx e =>
      match parseModelRef e.1 defaultProvider with
      | none => idx
      | some parsed =>
        let aliasValue := jsTrim (e.2.aliasName.getD "")
        if aliasValue.isEmpty then idx
        else
          let aliasKey := normalizeAliasKey aliasValue
          let key := modelKey parsed.provider parsed.model
          let existing := (mapGet idx.byKey key).getD []
          { byAlias := mapSet idx.byAlias aliasKey (aliasValue, parsed),
            byKey := mapSet idx.byKey key (existing ++ [aliasValue]) })
    ({} : ModelAliasIndex)

/-- resolveModelRefFromString from model-selection.ts. -/
def resolveModelRefFromString (raw : String) (defaultProvider : String)
    (aliasIndex : Option ModelAliasIndex) : Option (ModelRef × Option String) :=
  let trimmed := jsTrim raw
  if trimmed.isEmpty then none
  else
    let aliasHit :=
      if !(trimmed.data.contains '/') then
        match aliasIndex with
        | some idx => mapGet idx.byAlias (normalizeAliasKey trimmed)
        | none => none
      else none
    match aliasHit with
    | some hit => some (hit.2, some hit.1)
    | none =>
      match parseModelRef trimmed defaultProvider with
      | none => none
      | some parsed => some (parsed, none)

/-- resolveConfiguredModelRef from model-selection.ts (the final fallback
to provider anthropic is the deprecated compatibility path noted in the
source). -/
def resolveConfiguredModelRef (cfg : ClawdbotConfig)
    (defaultProvider defaultModel : String) : ModelRef :=
  let rawModel :=
    match (cfg.agent.map (·.model)).join with
    | some (ConfigModel.str s) => jsTrim s
    | some (ConfigModel.obj primary) => jsTrim (primary.getD "")
    | none => ""
  if !rawModel.isEmpty then
    let aliasIndex := buildModelAliasIndex cfg defaultProvider
    match resolveModelRefFromString rawModel defaultProvider (some aliasIndex) with
    | some resolved => resolved.1
    | none => ⟨"anthropic", rawModel⟩
  else ⟨defaultProvider, defaultModel⟩

/-- A JS Set of strings: insertion keeps the first occurrence. -/
def setAdd (s : List String) (x : String) : List String :=
  if s.contains x then s else s ++ [x]

structure AllowedModelSet where
  allowAny : Bool
  allowedCatalog : List ModelCatalogEntry
  allowedKeys : List String
deriving Repr

/-- The defaultKey computation in buildAllowedModelSet: only present when
both a default model (after trim) and a default provider are non-empty. -/
def allowedDefaultKey (defaultProvider : String) (defaultModel : Option String) : Option String :=
  let dm := jsTrim (defaultModel.getD "")
  if !dm.isEmpty && !defaultProvider.isEmpty then some (modelKey defaultProvider dm)
  else none

/-- The allowlist keys validated against the catalog plus the default key
(lines building allowedKeys in buildAllowedModelSet). -/
def allowlistAllowedKeys (cfg : ClawdbotConfig) (catalogKeys : List String)
    (defaultProvider : String) (defaultModel : Option String) : List String :=
  let rawAllowlist := (((cfg.agent.map (·.models)).join).getD []).map (·.1)
  let fromList := rawAllowlist.foldl
    (fun acc raw =>
      match parseModelRef raw defaultProvider with
      | none => acc
      | some parsed =>
        let key := modelKey parsed.provider parsed.model
        if catalogKeys.contains key then setAdd acc key else acc)
    []
  match allowedDefaultKey defaultProvider defaultModel with
  | some dk => setAdd fromList dk
  | none => fromList

/-- The catalog filtered by the validated allowlist keys (the
allowedCatalog computation in buildAllowedModelSet). -/
def allowlistValidatedCatalog (cfg : ClawdbotConfig) (catalog : List ModelCatalogEntry)
    (defaultProvider : String) (defaultModel : Option String) : List ModelCatalogEntry :=
  let catalogKeys := catalog.foldl (fun acc e => setAdd acc (modelKey e.provider e.id)) []
  let allowedKeys := allowlistAllowedKeys cfg catalogKeys defaultProvider defaultModel
  catalog.filter (fun e => allowedKeys.contains (modelKey e.provider e.id))

/-- buildAllowedModelSet from model-selection.ts. -/
def buildAllowedModelSet (cfg : ClawdbotConfig) (catalog : List ModelCatalogEntry)
    (defaultProvider : String) (defaultModel : Option String) : AllowedModelSet :=
  let rawAllowlist := (((cfg.agent.map (·.models)).join).getD []).map (·.1)
  let allowAny := rawAllowlist.isEmpty
  let defaultKey := allowedDefaultKey defaultProvider defaultModel
  let catalogKeys := catalog.foldl (fun acc e => setAdd acc (modelKey e.provider e.id)) []
  if allowAny then
    let keys := match defaultKey with
      | some dk => setAdd catalogKeys dk
      | none => catalogKeys
    { allowAny := true, allowedCatalog := catalog, allowedKeys := keys }
  else
    let allowedKeys := allowlistAllowedKeys cfg catalogKeys defaultProvider defaultModel
    let allowedCatalog := catalog.filter (fun e => allowedKeys.contains (modelKey e.provider e.id))
    if allowedCatalog.isEmpty then
      let keys := match defaultKey with
        | some dk => setAdd catalogKeys dk
        | none => catalogKeys
      { allowAny := true, allowedCatalog := catalog, allowedKeys := keys }
    else
      { allowAny := false, allowedCatalog := allowedCatalog, allowedKeys := allowedKeys }

/-! ## host-env-security.ts (src/unnamed/part_003)

The blocked-key policy ships as a JSON data file next to the module; the
code only reads its blockedKeys and blockedPrefixes arrays, so the policy
is a parameter here and every theorem quantifies over it. -/

structure HostEnvSecurityPolicy where
  blockedKeys : List String
  blockedPrefixLists : List String

/-- HOST_DANGEROUS_ENV_KEY_VALUES: blocked keys uppercased at load. -/
def hostDangerousEnvKeys (policy : HostEnvSecurityPolicy) : List String :=
  policy.blockedKeys.map toUpperAscii

/-- HOST_DANGEROUS_ENV_PREFIXES: blocked name stems uppercased at load. -/
def hostDangerousEnvStems (policy : HostEnvSecurityPolicy) : List String :=
  policy.blockedPrefixLists.map toUpperAscii

def isPortableEnvHead (c : Char) : Bool :=
  ('a' ≤ c && c ≤ 'z') || ('A' ≤ c && c ≤ 'Z') || c = '_'

def isPortableEnvTail (c : Char) : Bool :=
  isPortableEnvHead c || ('0' ≤ c && c ≤ '9')

/-- The PORTABLE_ENV_VAR_KEY regex test. -/
def portableEnvKeyTest (l : List Char) : Bool :=
  match l with
  | [] => false
  | c :: rest => isPortableEnvHead c && rest.all isPortableEnvTail

/-- normalizeEnvVarKey from host-env-security.ts. -/
def normalizeEnvVarKey (rawKey : String) (portable : Bool) : Option String :=
  let key := jsTrim rawKey
  if key.isEmpty then none
  else if portable && !portableEnvKeyTest key.data then none
  else some key

/-- isDangerousHostEnvVarName from host-env-security.ts. -/
def isDangerousHostEnvVarName (policy : HostEnvSecurityPolicy) (rawKey : String) : Bool :=
  match normalizeEnvVarKey rawKey false with
  | none => false
  | some key =>
    let upper := toUpperAscii key
    (hostDangerousEnvKeys policy).contains upper ||
      (hostDangerousEnvStems policy).any (fun stem => strStartsWith upper stem)

/-- A JS Record written by repeated assignment: overwrite or append. -/
def recordSet (m : List (String × String)) (k v : String) : List (String × String) :=
  if m.any (fun e => e.1 == k) then
    m.map (fun e => if e.1 == k then (k, v) else e)
  else m ++ [(k, v)]

def recordGet (m : List (String × String)) (k : String) : Option String :=
  (m.find? (fun e => e.1 == k)).map (·.2)

/-- The body of the baseEnv loop of sanitizeHostExecEnv: skip undefined
values, unportable keys and dangerous keys, copy the rest. -/
def sanitizeBaseStep (policy : HostEnvSecurityPolicy)
    (acc : List (String × String)) (e : String × Option String) :
    List (String × String) :=
  match e.2 with
  | none => acc
  | some value =>
    match normalizeEnvVarKey e.1 true with
    | none => acc
    | some key =>
      if isDangerousHostEnvVarName policy key then acc
      else recordSet acc key value

/-- The body of the overrides loop of sanitizeHostExecEnv: additionally
block PATH (when blockPathOverrides) and check danger on the uppercased
key. -/
def sanitizeOverrideStep (policy : HostEnvSecurityPolicy) (blockPath : Bool)
    (acc : List (String × String)) (e : String × String) :
    List (String × String) :=
  match normalizeEnvVarKey e.1 true with
  | none => acc
  | some key =>
    let upper := toUpperAscii key
    if blockPath && upper == "PATH" then acc
    else if isDangerousHostEnvVarName policy upper then acc
    else recordSet acc key e.2

/-- sanitizeHostExecEnv from host-env-security.ts.  baseEnv values may be
undefined (Option), overrides are plain strings. -/
def sanitizeHostExecEnv (policy : HostEnvSecurityPolicy)
    (baseEnv : List (String × Option String))
    (overrides : Option (List (String × String)))
    (blockPathOverrides : Option Bool) : List (String × String) :=
  let blockPath := blockPathOverrides.getD true
  let merged := baseEnv.foldl (sanitizeBaseStep policy) []
  match overrides with
  | none => merged
  | some ov => ov.foldl (sanitizeOverrideStep policy blockPath) merged

/-! ## cron next-run computation (src/unnamed/part_002)

Only the every branch of computeNextRunAtMs is embedded: the at branch
delegates to an absolute-time parser and the cron-expression branch to the
external croner evaluator, neither of which the claims touch. -/

structure EverySchedule where
  everyMs : Int
  anchorMs : Option Int := none

/-- The every branch of computeNextRunAtMs.  Math.floor is the identity on
the Int model; Math.max and the ceiling-by-floor idiom are kept verbatim. -/
def computeNextRunAtMsEvery (schedule : EverySchedule) (nowMs : Int) : Int :=
  let everyMs := max 1 schedule.everyMs
  let anchor := max 0 (schedule.anchorMs.getD nowMs)
  if nowMs < anchor then anchor
  else
    let elapsed := nowMs - anchor
    let steps := max 1 (Int.fdiv (elapsed + everyMs - 1) everyMs)
    anchor + steps * everyMs

/-- Ceiling division for a positive divisor, the ceil((now-anchor)/interval)
of the spec formula. -/
def ceilDiv (a b : Int) : Int := Int.fdiv (a + b - 1) b

/-! ## cron due-set computation (src/unnamed/part_001) -/

structure CronJobState where
  runningAtMs : Option Int := none
  lastRunAtMs : Option Int := none
  lastStatus : Option String := none
  lastError : Option String := none
  nextRunAtMs : Option Int := none
deriving DecidableEq, Repr

structure CronJob where
  id : String
  enabled : Bool
  scheduleKind : String
  jobState : CronJobState
deriving DecidableEq, Repr

/-- The due predicate of findDueJobs: enabled, not running, and the next
run time is a number at or before now. -/
def cronJobIsDue (j : CronJob) (now : Int) : Bool :=
  j.enabled &&
    j.jobState.runningAtMs.isNone &&
    (match j.jobState.nextRunAtMs with
     | some next => now ≥ next
     | none => false)

/-- findDueJobs from the cron timer module (the store is its job list). -/
def findDueJobs (jobs : List CronJob) (now : Int) : List CronJob :=
  jobs.filter (fun j => cronJobIsDue j now)

/-- The marking step of onTimer: every due job gets runningAtMs set to now
and lastError cleared before execution starts, and the store is persisted. -/
def markDueJobsRunning (jobs : List CronJob) (now : Int) : List CronJob :=
  jobs.map (fun j =>
    if cronJobIsDue j now then
      { j with jobState := { j.jobState with runningAtMs := some now, lastError := none } }
    else j)

/-! ## gateway sessions handlers (src/unnamed/part_006)

The handlers are modelled as pure functions over the loaded store; the
surrounding I/O (loadConfig, loadSessionStore, saveSessionStore, ajv
parameter validation) supplies their inputs.  An error result models
respond(false, ..) issued before saveSessionStore, so the persisted store
is the input store in every error case. -/

structure SessionEntry where
  sessionId : String
  updatedAt : Int
  spawnedBy : Option String := none
  thinkingLevel : Option String := none
  verboseLevel : Option String := none
  reasoningLevel : Option String := none
  responseUsage : Option String := none
  providerOverride : Option String := none
  modelOverride : Option String := none
  sendPolicy : Option String := none
  groupActivation : Option String := none
  model : Option String := none
  contextTokens : Option Int := none
  lastProvider : Option String := none
  lastTo : Option String := none
  skillsSnapshot : Option String := none
  systemSent : Option Bool := none
  abortedLastRun : Option Bool := none
  inputTokens : Option Int := none
  outputTokens : Option Int := none
  totalTokens : Option Int := none
deriving DecidableEq, Repr

/-- The session store document: key to entry. -/
abbrev SessionStore : Type := List (String × SessionEntry)

def storeGet (store : SessionStore) (k : String) : Option SessionEntry :=
  (List.find? (fun e => e.1 == k) store).map (·.2)

def storeSet (store : SessionStore) (k : String) (v : SessionEntry) : SessionStore :=
  if List.any store (fun e => e.1 == k) then
    List.map (fun e => if e.1 == k then (k, v) else e) store
  else store ++ [(k, v)]

def storeDelete (store : SessionStore) (k : String) : SessionStore :=
  List.filter (fun e => !(e.1 == k)) store

/-- primaryKey = target.storeKeys[0] ?? key (with key already trimmed). -/
def resolvePrimaryKey (storeKeys : List String) (key : String) : String :=
  storeKeys.headD key

/-- The alias-key migration shared by the patch, reset, delete and compact
handlers: when an entry lives under a non-primary candidate key and the
primary key is vacant, move it to the primary key. -/
def migrateStoreKeys (store : SessionStore) (storeKeys : List String)
    (primaryKey : String) : SessionStore :=
  match storeKeys.find? (fun c => (storeGet store c).isSome) with
  | some existingKey =>
    if existingKey ≠ primaryKey ∧ (storeGet store primaryKey).isNone then
      match storeGet store existingKey with
      | some entry => storeDelete (storeSet store primaryKey entry) existingKey
      | none => store
    else store
  | none => store

/-- sessions.reset: mint a fresh sessionId (randomUUID modelled as the
freshId input), keep the user-preference fields, clear everything else,
set systemSent and abortedLastRun to false. -/
def sessionsReset (store : SessionStore) (storeKeys : List String) (rawKey : String)
    (freshId : String) (now : Int) : Except String (SessionStore × SessionEntry) :=
  let key := jsTrim rawKey
  if key.isEmpty then .error "key required"
  else
    let primaryKey := resolvePrimaryKey storeKeys key
    let store := migrateStoreKeys store storeKeys primaryKey
    let entry := storeGet store primaryKey
    let next : SessionEntry :=
      { sessionId := freshId
        updatedAt := now
        systemSent := some false
        abortedLastRun := some false
        thinkingLevel := entry.bind (·.thinkingLevel)
        verboseLevel := entry.bind (·.verboseLevel)
        reasoningLevel := entry.bind (·.reasoningLevel)
        responseUsage := entry.bind (·.responseUsage)
        model := entry.bind (·.model)
        contextTokens := entry.bind (·.contextTokens)
        sendPolicy := entry.bind (·.sendPolicy)
        lastProvider := entry.bind (·.lastProvider)
        lastTo := entry.bind (·.lastTo)
        skillsSnapshot := entry.bind (·.skillsSnapshot) }
    .ok (storeSet store primaryKey next, next)

/-- The entry sessions.reset responds with (none when it errors first). -/
def sessionsResetEntry (store : SessionStore) (storeKeys : List String) (rawKey : String)
    (freshId : String) (now : Int) : Option SessionEntry :=
  match sessionsReset store storeKeys rawKey freshId now with
  | .ok r => some r.2
  | .error _ => none

/-- Tri-state JSON field: absent, null, or a string value. -/
def PatchField : Type := Option (Option String)

structure SessionsPatchParams where
  key : String
  spawnedBy : PatchField := none
  thinkingLevel : PatchField := none
  verboseLevel : PatchField := none
  reasoningLevel : PatchField := none
  responseUsage : PatchField := none
  model : PatchField := none
  sendPolicy : PatchField := none
  groupActivation : PatchField := none

/-- External normalizers imported by the handler module (their sources are
outside the given tree, so the patch handler is parametric in them) plus
the configured defaults and the gateway model catalog. -/
structure PatchDeps where
  cfg : ClawdbotConfig
  catalog : List ModelCatalogEntry
  defaultProvider : String
  defaultModel : String
  normThinkLevel : String → Option String
  normVerboseLevel : String → Option String
  normReasoningLevel : String → Option String
  normUsageDisplay : String → Option String
  normSendPolicy : String → Option String
  normGroupActivation : String → Option String

/-- JS truthiness of the stored spawnedBy field. -/
def spawnedBySet (existing : Option SessionEntry) : Option String :=
  match existing with
  | some e =>
    match e.spawnedBy with
    | some s => if s.isEmpty then none else some s
    | none => none
  | none => none

/-- The spawnedBy block of sessions.patch. -/
def applySpawnedBy (field : PatchField) (existing : Option SessionEntry)
    (primaryKey : String) (next : SessionEntry) : Except String SessionEntry :=
  match field with
  | none => .ok next
  | some none =>
    if (spawnedBySet existing).isSome then
      .error "spawnedBy cannot be cleared once set"
    else .ok next
  | some (some raw) =>
    let trimmed := jsTrim raw
    if trimmed.isEmpty then .error "invalid spawnedBy: empty"
    else if !isSubagentSessionKey (some primaryKey) then
      .error "spawnedBy is only supported for subagent:* sessions"
    else
      match spawnedBySet existing with
      | some s =>
        if s ≠ trimmed then .error "spawnedBy cannot be changed once set"
        else .ok { next with spawnedBy := some trimmed }
      | none => .ok { next with spawnedBy := some trimmed }

/-- The shared shape of the thinkingLevel / verboseLevel / reasoningLevel /
responseUsage blocks: null clears, a value is normalized (invalid values
are a validation error) and storing the value off clears instead. -/
def applyLevelField (field : PatchField) (normalize : String → Option String)
    (errMsg : String) (clearF : SessionEntry → SessionEntry)
    (setF : SessionEntry → String → SessionEntry) (next : SessionEntry) :
    Except String SessionEntry :=
  match field with
  | none => .ok next
  | some none => .ok (clearF next)
  | some (some raw) =>
    match normalize raw with
    | none => .error errMsg
    | some normalized =>
      if normalized == "off" then .ok (clearF next) else .ok (setF next normalized)

/-- The sendPolicy / groupActivation blocks: like applyLevelField but a
normalized value is always stored. -/
def applySetField (field : PatchField) (normalize : String → Option String)
    (errMsg : String) (clearF : SessionEntry → SessionEntry)
    (setF : SessionEntry → String → SessionEntry) (next : SessionEntry) :
    Except String SessionEntry :=
  match field with
  | none => .ok next
  | some none => .ok (clearF next)
  | some (some raw) =>
    match normalize raw with
    | none => .error errMsg
    | some normalized => .ok (setF next normalized)

/-- The model block of sessions.patch: resolve against alias index and
default, validate against the allowed model set, store or clear the
provider/model override pair. -/
def applyModelField (deps : PatchDeps) (field : PatchField) (next : SessionEntry) :
    Except String SessionEntry :=
  match field with
  | none => .ok next
  | some none => .ok { next with providerOverride := none, modelOverride := none }
  | some (some raw) =>
    let trimmed := jsTrim raw
    if trimmed.isEmpty then .error "invalid model: empty"
    else
      let resolvedDefault := resolveConfiguredModelRef deps.cfg deps.defaultProvider deps.defaultModel
      let aliasIndex := buildModelAliasIndex deps.cfg resolvedDefault.provider
      match resolveModelRefFromString trimmed resolvedDefault.provider (some aliasIndex) with
      | none => .error ("invalid model: " ++ trimmed)
      | some resolved =>
        let allowed := buildAllowedModelSet deps.cfg deps.catalog
          resolvedDefault.provider (some resolvedDefault.model)
        let key := modelKey resolved.1.provider resolved.1.model
        if !allowed.allowAny && !(allowed.allowedKeys.contains key) then
          .error ("model not allowed: " ++ key)
        else if resolved.1.provider == resolvedDefault.provider &&
            resolved.1.model == resolvedDefault.model then
          .ok { next with providerOverride := none, modelOverride := none }
        else
          .ok { next with providerOverride := some resolved.1.provider,
                          modelOverride := some resolved.1.model }

/-- sessions.patch: validation-first, merge-on-success; any error is
responded before saveSessionStore runs. -/
def sessionsPatch (deps : PatchDeps) (store : SessionStore) (storeKeys : List String)
    (p : SessionsPatchParams) (freshId : String) (now : Int) :
    Except String (SessionStore × SessionEntry) := do
  let key := jsTrim p.key
  if key.isEmpty then throw "key required"
  let primaryKey := resolvePrimaryKey storeKeys key
  let store := migrateStoreKeys store storeKeys primaryKey
  let existing := storeGet store primaryKey
  let next : SessionEntry :=
    match existing with
    | some e => { e with updatedAt := max e.updatedAt now }
    | none => { sessionId := freshId, updatedAt := now }
  let next ← applySpawnedBy p.spawnedBy existing primaryKey next
  let next ← applyLevelField p.thinkingLevel deps.normThinkLevel
    "invalid thinkingLevel (use off|minimal|low|medium|high)"
    (fun e => { e with thinkingLevel := none })
    (fun e v => { e with thinkingLevel := some v }) next
  let next ← applyLevelField p.verboseLevel deps.normVerboseLevel
    "invalid verboseLevel"
    (fun e => { e with verboseLevel := none })
    (fun e v => { e with verboseLevel := some v }) next
  let next ← applyLevelField p.reasoningLevel deps.normReasoningLevel
    "invalid reasoningLevel"
    (fun e => { e with reasoningLevel := none })
    (fun e v => { e with reasoningLevel := some v }) next
  let next ← applyLevelField p.responseUsage deps.normUsageDisplay
    "invalid responseUsage"
    (fun e => { e with responseUsage := none })
    (fun e v => { e with responseUsage := some v }) next
  let next ← applyModelField deps p.model next
  let next ← applySetField p.sendPolicy deps.normSendPolicy
    "invalid sendPolicy"
    (fun e => { e with sendPolicy := none })
    (fun e v => { e with sendPolicy := some v }) next
  let next ← applySetField p.groupActivation deps.normGroupActivation
    "invalid groupActivation"
    (fun e => { e with groupActivation := none })
    (fun e v => { e with groupActivation := some v }) next
  return (storeSet store primaryKey next, next)

/-- The store that saveSessionStore ends up persisting: the merged store
on success, the untouched input store when the handler responded with an
error first. -/
def patchPersistedStore (deps : PatchDeps) (store : SessionStore)
    (storeKeys : List String) (p : SessionsPatchParams) (freshId : String)
    (now : Int) : SessionStore :=
  match sessionsPatch deps store storeKeys p freshId now with
  | .ok r => r.1
  | .error _ => store

/-! ## block-reply streaming in the reply runner (src/unnamed/part_007)

Block replies for one run are delivered over a promise chain, so the
deliveries are sequential; the chain is modelled as a left fold over the
trace of block candidates (payloads that already passed the heartbeat /
renderable / silent-token filters), each carrying the outcome of its
external onBlockReply delivery: completed within the timeout, exceeded the
timeout, or failed with another error.  The entry guard on
blockReplyAborted and the in-chain guard collapse to one check in the
sequential model, and pendingStreamedPayloadKeys is empty between chain
links. -/

def BLOCK_REPLY_SEND_TIMEOUT_MS : Int := 15000

/-- blockReplyTimeoutMs = opts.blockReplyTimeoutMs ?? default. -/
def resolveBlockReplyTimeoutMs (optTimeout : Option Int) : Int :=
  optTimeout.getD BLOCK_REPLY_SEND_TIMEOUT_MS

inductive BlockDeliveryOutcome where
  | delivered
  | timedOut
  | failed
deriving DecidableEq, Repr

structure BlockCandidate where
  payloadKey : String
  outcome : BlockDeliveryOutcome
deriving DecidableEq, Repr

structure BlockStreamState where
  streamedPayloadKeys : List String := []
  blockReplyAborted : Bool := false
  didStreamBlockReply : Bool := false
  deliveredKeys : List String := []
deriving DecidableEq, Repr

/-- One link of the block-reply chain: dedup on the payload key, skip
everything once aborted, mark the run aborted on a delivery timeout,
record a completed delivery into streamedPayloadKeys / didStreamBlockReply. -/
def blockReplyStep (s : BlockStreamState) (b : BlockCandidate) : BlockStreamState :=
  if s.streamedPayloadKeys.contains b.payloadKey then s
  else if s.blockReplyAborted then s
  else
    match b.outcome with
    | .delivered =>
      { s with streamedPayloadKeys := s.streamedPayloadKeys ++ [b.payloadKey],
               didStreamBlockReply := true,
               deliveredKeys := s.deliveredKeys ++ [b.payloadKey] }
    | .timedOut => { s with blockReplyAborted := true }
    | .failed => s

/-- The whole chain for one run. -/
def processBlockReplies (blocks : List BlockCandidate) : BlockStreamState :=
  blocks.foldl blockReplyStep {}

/-- shouldDropFinalPayloads from the reply runner: drop the final payloads
only when block streaming is on, at least one block streamed, and the
stream was not aborted. -/
def shouldDropFinalPayloads (blockStreamingEnabled : Bool) (s : BlockStreamState) : Bool :=
  blockStreamingEnabled && s.didStreamBlockReply && !s.blockReplyAborted

/-- The final filteredPayloads selection (payloads are identified by their
dedup keys): dropped entirely, filtered by the streamed keys, or passed
through unchanged. -/
def filterFinalPayloads (blockStreamingEnabled : Bool) (s : BlockStreamState)
    (dedupedPayloads : List String) : List String :=
  if shouldDropFinalPayloads blockStreamingEnabled s then []
  else if blockStreamingEnabled then
    dedupedPayloads.filter (fun p => !s.streamedPayloadKeys.contains p)
  else dedupedPayloads

/-! ## route resolver

Modelled from the spec: resolve-route.ts is not under the given source
tree (only its test file is), so resolveAgentRoute is built from the
section 4.2 contract and the expectations of resolve-route.test.ts:
precedence peer > guild > account > channel-wildcard > configured default
agent > hardcoded default, declaration order inside a tier, a binding
without accountId matches only the default account, and the winning tier
is reported as matchedBy.  Whether a wildcard-account binding may also
win the peer or guild tier is not pinned down by spec or test; here it
may. -/

structure PeerSel where
  kind : String
  id : String
deriving DecidableEq, Repr

structure BindingMatch where
  channel : String
  accountId : Option String := none
  peer : Option PeerSel := none
  guildId : Option String := none
deriving DecidableEq, Repr

structure Binding where
  agentId : String
  matchRule : BindingMatch
deriving DecidableEq, Repr

structure AgentListEntry where
  id : String
  isDefault : Bool := false
deriving DecidableEq, Repr

structure RouteConfig where
  bindings : List Binding := []
  agentsList : List AgentListEntry := []
  dmScope : Option String := none

structure RouteContext where
  channel : String
  accountId : Option String := none
  peer : PeerSel
  guildId : Option String := none

structure ResolvedRoute where
  agentId : String
  accountId : String
  sessionKey : String
  matchedBy : String
deriving DecidableEq, Repr

/-- Modelled from the spec: channel comparison between a binding and the
inbound event (normalized tokens). -/
def bindingChannelMatches (b : Binding) (ctx : RouteContext) : Bool :=
  toLowerAscii (jsTrim b.matchRule.channel) == toLowerAscii (jsTrim ctx.channel)

/-- Modelled from the spec: a binding without accountId matches only the
default account; an explicit accountId must equal the normalized inbound
account; the wildcard matches any account. -/
def bindingAccountMatches (b : Binding) (account : String) : Bool :=
  match b.matchRule.accountId with
  | none => account == DEFAULT_ACCOUNT_ID
  | some "*" => true
  | some a => normalizeAccountId (some a) == account

/-- Tier 1: channel + account + the specific peer. -/
def bindingMatchesPeerTier (b : Binding) (ctx : RouteContext) (account : String) : Bool :=
  bindingChannelMatches b ctx && bindingAccountMatches b account &&
    (match b.matchRule.peer with
     | some p => p.kind == ctx.peer.kind && p.id == ctx.peer.id
     | none => false)

/-- Tier 2: channel + account + guild, with no peer selector. -/
def bindingMatchesGuildTier (b : Binding) (ctx : RouteContext) (account : String) : Bool :=
  bindingChannelMatches b ctx && bindingAccountMatches b account &&
    b.matchRule.peer.isNone &&
    (match b.matchRule.guildId, ctx.guildId with
     | some g, some cg => g == cg
     | _, _ => false)

/-- Tier 3: channel + account exactly, no peer or guild selector, and not
the wildcard account. -/
def bindingMatchesAccountTier (b : Binding) (ctx : RouteContext) (account : String) : Bool :=
  bindingChannelMatches b ctx && b.matchRule.peer.isNone && b.matchRule.guildId.isNone &&
    (match b.matchRule.accountId with
     | none => account == DEFAULT_ACCOUNT_ID
     | some "*" => false
     | some a => normalizeAccountId (some a) == account)

/-- Tier 4: channel with the wildcard account, no peer or guild selector. -/
def bindingMatchesChannelTier (b : Binding) (ctx : RouteContext) : Bool :=
  bindingChannelMatches b ctx && b.matchRule.accountId == some "*" &&
    b.matchRule.peer.isNone && b.matchRule.guildId.isNone

/-- Modelled from the spec: the configured default agent id, when one of
the agents list entries is flagged default. -/
def configuredDefaultAgentId (cfg : RouteConfig) : Option String :=
  (cfg.agentsList.find? (·.isDefault)).map (·.id)

/-- Modelled from the spec: resolveAgentRoute. -/
def resolveAgentRoute (cfg : RouteConfig) (ctx : RouteContext) : ResolvedRoute :=
  let account := normalizeAccountId ctx.accountId
  let chosen : String × String :=
    match cfg.bindings.find? (fun b => bindingMatchesPeerTier b ctx account) with
    | some b => (b.agentId, "binding.peer")
    | none =>
      match cfg.bindings.find? (fun b => bindingMatchesGuildTier b ctx account) with
      | some b => (b.agentId, "binding.guild")
      | none =>
        match cfg.bindings.find? (fun b => bindingMatchesAccountTier b ctx account) with
        | some b => (b.agentId, "binding.account")
        | none =>
          match cfg.bindings.find? (fun b => bindingMatchesChannelTier b ctx) with
          | some b => (b.agentId, "binding.channel")
          | none =>
            match configuredDefaultAgentId cfg with
            | some agentId => (agentId, "default")
            | none => (DEFAULT_AGENT_ID, "default")
  let agentId := normalizeAgentId (some chosen.1)
  { agentId := agentId
    accountId := account
    sessionKey := buildAgentPeerSessionKey
      { agentId := agentId
        channel := ctx.channel
        peerKind := some ctx.peer.kind
        peerId := some ctx.peer.id
        dmScope := cfg.dmScope }
    matchedBy := chosen.2 }

/-! ## Helper lemmas -/

theorem char_toNat_ofNat_valid (n : Nat) (h : n.isValidChar) : (Char.ofNat n).toNat = n := by
  simp only [Char.ofNat, dif_pos h]
  rfl

theorem char_toUpper_toNat (c : Char) :
    (Char.toUpper c).toNat = if 97 ≤ c.toNat ∧ c.toNat ≤ 122 then c.toNat - 32 else c.toNat := by
  simp only [Char.toUpper, ge_iff_le]
  by_cases h : 97 ≤ c.toNat ∧ c.toNat ≤ 122
  · rw [if_pos h, if_pos h, char_toNat_ofNat_valid _ (by left; omega)]
  · rw [if_neg h, if_neg h]

theorem char_eq_iff_toNat (c d : Char) : c = d ↔ c.toNat = d.toNat := by
  constructor
  · intro h; rw [h]
  · intro h
    have h2 := congrArg Char.ofNat h
    rwa [Char.ofNat_toNat, Char.ofNat_toNat] at h2

theorem isLowerIdChar_isIdTailChar {c : Char} (h : isLowerIdChar c = true) :
    isIdTailChar c = true := by
  simp only [isLowerIdChar, Bool.or_eq_true, Bool.and_eq_true, decide_eq_true_eq] at h
  simp only [isIdTailChar, isAsciiAlphaNum, Bool.or_eq_true, Bool.and_eq_true,
    decide_eq_true_eq]
  tauto

theorem collapseInvalidRuns_chars (l : List Char) :
    ∀ c ∈ collapseInvalidRuns l, isLowerIdChar c = true := by
  induction l using collapseInvalidRuns.induct with
  | case1 => simp [collapseInvalidRuns]
  | case2 c rest h ih =>
    rw [collapseInvalidRuns, if_pos h]
    intro d hd
    rcases List.mem_cons.mp hd with h1 | h1
    · exact h1 ▸ h
    · exact ih d h1
  | case3 c rest h ih =>
    rw [collapseInvalidRuns, if_neg h]
    intro d hd
    rcases List.mem_cons.mp hd with h1 | h1
    · subst h1; decide
    · exact ih d h1

theorem mem_dropDashes_take {c : Char} {l : List Char} {n : Nat}
    (h : c ∈ (dropDashesRight (dropDashesLeft l)).take n) : c ∈ l := by
  have h1 : c ∈ dropDashesRight (dropDashesLeft l) :=
    (List.take_sublist n _).mem h
  unfold dropDashesRight dropDashesLeft at h1
  rw [List.mem_reverse] at h1
  have h2 := (List.dropWhile_sublist (l := (List.dropWhile (fun c => c = '-') l).reverse)
    (fun c => c = '-')).mem h1
  rw [List.mem_reverse] at h2
  exact (List.dropWhile_sublist (fun c => c = '-')).mem h2

/-! ## Claim theorems -/

/-- C1: for every agentId, channel and peerId, buildAgentPeerSessionKey
with peerKind dm and dmScope main, or with dmScope unset, returns the
main continuity key agent:agentId:mainKey (mainKey defaulting to main),
independent of the channel and peerId arguments. -/
theorem buildAgentPeerSessionKey_dmScope_main_continuity
    (agentId : String) (mainKey : Option String) (channel : String) (peerId : String) :
    (buildAgentPeerSessionKey
        { agentId := agentId, mainKey := mainKey, channel := channel,
          peerKind := some "dm", peerId := some peerId, dmScope := some "main" } =
      "agent:" ++ normalizeAgentId (some agentId) ++ ":" ++ normalizeMainKey mainKey) ∧
    (buildAgentPeerSessionKey
        { agentId := agentId, mainKey := mainKey, channel := channel,
          peerKind := some "dm", peerId := some peerId, dmScope := none } =
      "agent:" ++ normalizeAgentId (some agentId) ++ ":" ++ normalizeMainKey mainKey) :=
  ⟨rfl, rfl⟩

/-- C9 counterexample: normalizeAgentId returns the single uppercase
letter input A unchanged, which is neither lowercase nor drawn from the
claimed character set [a-z0-9_-]. -/
theorem normalizeAgentId_claim_counterexample :
    normalizeAgentId (some "A") = "A" ∧
    ('A' ∈ (normalizeAgentId (some "A")).data ∧ isLowerIdChar 'A' = false) := by
  constructor
  · decide
  · constructor
    · decide
    · decide

/-- C9 amended: normalizeAgentId always yields a nonempty string of at
most 64 characters over [a-zA-Z0-9_-]; an input whose trimmed form
already matches the shape regex (case-insensitively) is returned
unchanged, so uppercase letters survive; any other input is reduced to
the lowercase set [a-z0-9_-]; a trimmed-empty input yields the default
id main. -/
theorem normalizeAgentId_spec (s : String) :
    (normalizeAgentId (some s)).length ≤ 64 ∧
    normalizeAgentId (some s) ≠ "" ∧
    (∀ c ∈ (normalizeAgentId (some s)).data, isIdTailChar c = true) ∧
    (idShapeTest (trimChars s.data) = true →
      normalizeAgentId (some s) = String.mk (trimChars s.data)) ∧
    (idShapeTest (trimChars s.data) = false →
      ∀ c ∈ (normalizeAgentId (some s)).data, isLowerIdChar c = true) ∧
    (trimChars s.data = [] → normalizeAgentId (some s) = DEFAULT_AGENT_ID) := by
  unfold normalizeAgentId
  simp only [Option.getD_some]
  by_cases hempty : (trimChars s.data).isEmpty = true
  · rw [if_pos hempty]
    have he : trimChars s.data = [] := by
      cases h : trimChars s.data with
      | nil => rfl
      | cons a l => rw [h] at hempty; simp [List.isEmpty] at hempty
    refine ⟨by decide, by decide, by decide, ?_, ?_, fun _ => rfl⟩
    · intro hshape
      rw [he] at hshape
      simp [idShapeTest] at hshape
    · intro _; decide
  · rw [if_neg hempty]
    by_cases hshape : idShapeTest (trimChars s.data) = true
    · rw [if_pos hshape]
      cases h : trimChars s.data with
      | nil => rw [h] at hempty; simp [List.isEmpty] at hempty
      | cons a l =>
        rw [h] at hshape
        have hshape2 := hshape
        simp only [idShapeTest, Bool.and_eq_true, decide_eq_true_eq] at hshape2
        obtain ⟨⟨ha, hall⟩, hlen⟩ := hshape2
        refine ⟨?_, ?_, ?_, fun _ => rfl, ?_, ?_⟩
        · show (String.mk (a :: l)).length ≤ 64
          simp only [String.length, List.length_cons]
          omega
        · intro hcontra
          have h2 : a :: l = [] := congrArg String.data hcontra
          exact absurd h2 (List.cons_ne_nil a l)
        · intro c hc
          rcases List.mem_cons.mp hc with h1 | h1
          · subst h1
            simp [isIdTailChar, ha]
          · exact (List.all_eq_true.mp hall) c h1
        · intro hfalse
          rw [hshape] at hfalse
          exact absurd hfalse (by decide)
        · intro hnil
          exact absurd hnil (List.cons_ne_nil a l)
    · rw [if_neg hshape]
      have hchars : ∀ c ∈ ((dropDashesRight (dropDashesLeft
          (collapseInvalidRuns ((trimChars s.data).map Char.toLower)))).take 64),
          isLowerIdChar c = true := by
        intro c hc
        exact collapseInvalidRuns_chars _ c (mem_dropDashes_take hc)
      by_cases hclean : ((dropDashesRight (dropDashesLeft
          (collapseInvalidRuns ((trimChars s.data).map Char.toLower)))).take 64).isEmpty = true
      · rw [if_pos hclean]
        refine ⟨by decide, by decide, by decide, ?_, ?_, ?_⟩
        · intro hc; exact absurd hc (by simp [hshape])
        · intro _; decide
        · intro hnil; rfl
      · rw [if_neg hclean]
        set cleaned := (dropDashesRight (dropDashesLeft
          (collapseInvalidRuns ((trimChars s.data).map Char.toLower)))).take 64 with hcleaned
        refine ⟨?_, ?_, ?_, ?_, ?_, ?_⟩
        · show (String.mk cleaned).length ≤ 64
          have := List.length_take 64 (dropDashesRight (dropDashesLeft
            (collapseInvalidRuns ((trimChars s.data).map Char.toLower))))
          simp only [String.length, hcleaned]
          omega
        · intro hcontra
          have h2 : cleaned = [] := congrArg String.data hcontra
          exact hclean (by rw [h2]; rfl)
        · intro c hc
          exact isLowerIdChar_isIdTailChar (hchars c hc)
        · intro hc; exact absurd hc (by simp [hshape])
        · intro _
          exact hchars
        · intro hnil
          rw [hnil] at hempty
          simp [List.isEmpty] at hempty

/-- C9 witness: the amended theorem evaluated on a concrete input that
does not match the fast-path shape. -/
theorem normalizeAgentId_spec_witness :
    normalizeAgentId (some " My Agent!! ") ≠ "" ∧
    (∀ c ∈ (normalizeAgentId (some " My Agent!! ")).data, isLowerIdChar c = true) :=
  ⟨(normalizeAgentId_spec " My Agent!! ").2.1,
   (normalizeAgentId_spec " My Agent!! ").2.2.2.2.1 (by decide)⟩

/-- C2: for every configuration and inbound event, a binding matching the
peer tier wins (matchedBy binding.peer, first such binding in declaration
order); with no peer-tier match a guild-tier binding wins (binding.guild);
with neither, an account-tier binding wins (binding.account).  find?
returns the first match in declaration order, so order breaks ties only
inside a tier and never lets a lower tier shadow a higher one. -/
theorem resolveAgentRoute_tier_precedence (cfg : RouteConfig) (ctx : RouteContext) :
    (∀ b, List.find? (fun b => bindingMatchesPeerTier b ctx (normalizeAccountId ctx.accountId))
        cfg.bindings = some b →
      (resolveAgentRoute cfg ctx).matchedBy = "binding.peer" ∧
      (resolveAgentRoute cfg ctx).agentId = normalizeAgentId (some b.agentId)) ∧
    (List.find? (fun b => bindingMatchesPeerTier b ctx (normalizeAccountId ctx.accountId))
        cfg.bindings = none →
      ∀ b, List.find? (fun b => bindingMatchesGuildTier b ctx (normalizeAccountId ctx.accountId))
        cfg.bindings = some b →
      (resolveAgentRoute cfg ctx).matchedBy = "binding.guild" ∧
      (resolveAgentRoute cfg ctx).agentId = normalizeAgentId (some b.agentId)) ∧
    (List.find? (fun b => bindingMatchesPeerTier b ctx (normalizeAccountId ctx.accountId))
        cfg.bindings = none →
      List.find? (fun b => bindingMatchesGuildTier b ctx (normalizeAccountId ctx.accountId))
        cfg.bindings = none →
      ∀ b, List.find? (fun b => bindingMatchesAccountTier b ctx (normalizeAccountId ctx.accountId))
        cfg.bindings = some b →
      (resolveAgentRoute cfg ctx).matchedBy = "binding.account" ∧
      (resolveAgentRoute cfg ctx).agentId = normalizeAgentId (some b.agentId)) := by
  refine ⟨?_, ?_, ?_⟩
  · intro b hb
    simp [resolveAgentRoute, hb]
  · intro hp b hb
    simp [resolveAgentRoute, hp, hb]
  · intro hp hg b hb
    simp [resolveAgentRoute, hp, hg, hb]

/-- C2 witness: the peer-tier binding declared after the guild-tier and
account-tier bindings still wins, with matchedBy binding.peer. -/
theorem resolveAgentRoute_tier_precedence_witness :
    (resolveAgentRoute
        { bindings := [
            ⟨"acct", { channel := "discord", accountId := some "default" }⟩,
            ⟨"guild", { channel := "discord", accountId := some "default",
                        guildId := some "g1" }⟩,
            ⟨"chan", { channel := "discord", accountId := some "default",
                       peer := some ⟨"channel", "c1"⟩ }⟩] }
        { channel := "discord", accountId := some "default",
          peer := ⟨"channel", "c1"⟩, guildId := some "g1" }).matchedBy = "binding.peer" :=
  ((resolveAgentRoute_tier_precedence
      { bindings := [
          ⟨"acct", { channel := "discord", accountId := some "default" }⟩,
          ⟨"guild", { channel := "discord", accountId := some "default",
                      guildId := some "g1" }⟩,
          ⟨"chan", { channel := "discord", accountId := some "default",
                     peer := some ⟨"channel", "c1"⟩ }⟩] }
      { channel := "discord", accountId := some "default",
        peer := ⟨"channel", "c1"⟩, guildId := some "g1" }).1
    ⟨"chan", { channel := "discord", accountId := some "default",
               peer := some ⟨"channel", "c1"⟩ }⟩ (by decide)).1

/-- C6 counterexample: at nowMs equal to the anchor the code returns
anchor plus one interval, while the claimed formula collapses to the
anchor itself (the code clamps the step count to at least one). -/
theorem computeNextRunAtMsEvery_claim_counterexample :
    computeNextRunAtMsEvery ⟨1000, some 0⟩ 0 = 1000 ∧
    (0 : Int) + ceilDiv (0 - 0) 1000 * 1000 = 0 ∧
    (1000 : Int) ≠ (0 : Int) := by
  refine ⟨?_, ?_, by decide⟩
  · decide
  · decide

theorem one_le_ceilDiv {a b : Int} (ha : 1 ≤ a) (hb : 1 ≤ b) : 1 ≤ ceilDiv a b := by
  unfold ceilDiv
  rw [Int.fdiv_eq_ediv _ (by omega)]
  rw [Int.le_ediv_iff_mul_le (by omega)]
  omega

/-- C6 amended: with the effective anchor A = max(0, anchorMs or nowMs)
and the effective interval E = max(1, everyMs), the code returns A when
nowMs is before A, and A + max(1, ceil((nowMs-A)/E)) * E otherwise; the
claimed formula A + ceil((nowMs-A)/E) * E therefore holds exactly when
nowMs is strictly after the anchor, and the concrete anchor 0, interval
1000, now 2500 case gives 3000 as claimed. -/
theorem computeNextRunAtMsEvery_formula (schedule : EverySchedule) (nowMs : Int) :
    (nowMs < max 0 (schedule.anchorMs.getD nowMs) →
      computeNextRunAtMsEvery schedule nowMs = max 0 (schedule.anchorMs.getD nowMs)) ∧
    (max 0 (schedule.anchorMs.getD nowMs) ≤ nowMs →
      computeNextRunAtMsEvery schedule nowMs =
        max 0 (schedule.anchorMs.getD nowMs) +
          max 1 (ceilDiv (nowMs - max 0 (schedule.anchorMs.getD nowMs))
            (max 1 schedule.everyMs)) * max 1 schedule.everyMs) ∧
    (max 0 (schedule.anchorMs.getD nowMs) < nowMs →
      computeNextRunAtMsEvery schedule nowMs =
        max 0 (schedule.anchorMs.getD nowMs) +
          ceilDiv (nowMs - max 0 (schedule.anchorMs.getD nowMs))
            (max 1 schedule.everyMs) * max 1 schedule.everyMs) ∧
    computeNextRunAtMsEvery ⟨1000, some 0⟩ 2500 = 3000 := by
  refine ⟨?_, ?_, ?_, by decide⟩
  · intro h
    unfold computeNextRunAtMsEvery
    rw [if_pos h]
  · intro h
    unfold computeNextRunAtMsEvery
    rw [if_neg (by omega)]
    rfl
  · intro h
    unfold computeNextRunAtMsEvery
    rw [if_neg (by omega)]
    have h1 : 1 ≤ nowMs - max 0 (schedule.anchorMs.getD nowMs) := by omega
    have h2 : (1 : Int) ≤ max 1 schedule.everyMs := le_max_left 1 _
    have h3 := one_le_ceilDiv h1 h2
    show max 0 (schedule.anchorMs.getD nowMs) +
      max 1 (ceilDiv (nowMs - max 0 (schedule.anchorMs.getD nowMs)) (max 1 schedule.everyMs)) *
        max 1 schedule.everyMs = _
    rw [max_eq_right h3]

/-- C6 witness: the amended per-case formula evaluated at the concrete
anchor 0, interval 1000, now 2500 schedule. -/
theorem computeNextRunAtMsEvery_formula_witness :
    computeNextRunAtMsEvery ⟨1000, some 0⟩ 2500 =
      max 0 ((some (0 : Int)).getD 2500) +
        ceilDiv (2500 - max 0 ((some (0 : Int)).getD 2500)) (max 1 1000) * max 1 1000 :=
  (computeNextRunAtMsEvery_formula ⟨1000, some 0⟩ 2500).2.2.1 (by decide)

/-- C7: for every job store and tick time, a job is in the due set only
when it is enabled, its runningAtMs is unset and its nextRunAtMs is a
number at or before now; a job with runningAtMs set is never selected;
and after a tick marks its due jobs running, the marked jobs are excluded
from the due set of any later tick. -/
theorem findDueJobs_excludes_running (jobs : List CronJob) (now : Int) :
    (∀ j ∈ findDueJobs jobs now,
      j.enabled = true ∧ j.jobState.runningAtMs = none ∧
      ∃ t, j.jobState.nextRunAtMs = some t ∧ t ≤ now) ∧
    (∀ j ∈ jobs, j.jobState.runningAtMs ≠ none → j ∉ findDueJobs jobs now) ∧
    (∀ (now2 : Int), ∀ j ∈ findDueJobs jobs now,
      ({ j with jobState := { j.jobState with runningAtMs := some now, lastError := none } })
        ∉ findDueJobs (markDueJobsRunning jobs now) now2) := by
  refine ⟨?_, ?_, ?_⟩
  · intro j hj
    have hdue := (List.mem_filter.mp hj).2
    cases hn : j.jobState.nextRunAtMs with
    | none =>
      simp only [cronJobIsDue, hn] at hdue
      simp at hdue
    | some t =>
      simp only [cronJobIsDue, hn, Bool.and_eq_true, Option.isNone_iff_eq_none,
        ge_iff_le, decide_eq_true_eq] at hdue
      exact ⟨hdue.1.1, hdue.1.2, t, rfl, hdue.2⟩
  · intro j _ hrun hmem
    have hdue := (List.mem_filter.mp hmem).2
    simp only [cronJobIsDue, Bool.and_eq_true, Option.isNone_iff_eq_none] at hdue
    exact hrun hdue.1.2
  · intro now2 j _ hmem
    have hdue := (List.mem_filter.mp hmem).2
    simp [cronJobIsDue] at hdue

/-- C7 witness: a concrete due job, and the same job with runningAtMs set
excluded from the due set. -/
theorem findDueJobs_excludes_running_witness :
    (⟨"job1", true, "every", { runningAtMs := some 7, nextRunAtMs := some 5 }⟩ : CronJob)
      ∉ findDueJobs [⟨"job1", true, "every", { runningAtMs := some 7, nextRunAtMs := some 5 }⟩] 10 :=
  (findDueJobs_excludes_running
      [⟨"job1", true, "every", { runningAtMs := some 7, nextRunAtMs := some 5 }⟩] 10).2.1
    ⟨"job1", true, "every", { runningAtMs := some 7, nextRunAtMs := some 5 }⟩
    (by decide) (by decide)

theorem blockReplyStep_of_aborted (s : BlockStreamState) (b : BlockCandidate)
    (h : s.blockReplyAborted = true) : blockReplyStep s b = s := by
  unfold blockReplyStep
  by_cases hdup : s.streamedPayloadKeys.contains b.payloadKey = true
  · rw [if_pos hdup]
  · rw [if_neg hdup, if_pos h]

theorem foldl_blockReplyStep_of_aborted (blocks : List BlockCandidate)
    (s : BlockStreamState) (h : s.blockReplyAborted = true) :
    List.foldl blockReplyStep s blocks = s := by
  induction blocks with
  | nil => rfl
  | cons b bs ih =>
    rw [List.foldl_cons, blockReplyStep_of_aborted s b h]
    exact ih

/-- C8: when a streamed block exceeds the delivery timeout, the chain
aborts: no later block in the run is delivered, the streamed-key set
stops growing, shouldDropFinalPayloads is false so the accumulated final
payloads survive (filtered only against already-streamed keys), final
payloads are dropped exactly when streaming is enabled, a block streamed
and no abort happened, and the default per-block timeout is 15000 ms. -/
theorem blockReply_timeout_stops_streaming
    (pre post : List BlockCandidate) (key : String) (e : Bool) (deduped : List String)
    (hnotdup : (processBlockReplies pre).streamedPayloadKeys.contains key = false)
    (hnotab : (processBlockReplies pre).blockReplyAborted = false) :
    (processBlockReplies (pre ++ ⟨key, .timedOut⟩ :: post)).blockReplyAborted = true ∧
    (processBlockReplies (pre ++ ⟨key, .timedOut⟩ :: post)).deliveredKeys =
      (processBlockReplies pre).deliveredKeys ∧
    (processBlockReplies (pre ++ ⟨key, .timedOut⟩ :: post)).streamedPayloadKeys =
      (processBlockReplies pre).streamedPayloadKeys ∧
    shouldDropFinalPayloads e (processBlockReplies (pre ++ ⟨key, .timedOut⟩ :: post)) = false ∧
    filterFinalPayloads e (processBlockReplies (pre ++ ⟨key, .timedOut⟩ :: post)) deduped =
      (if e then deduped.filter (fun p =>
        !(processBlockReplies (pre ++ ⟨key, .timedOut⟩ :: post)).streamedPayloadKeys.contains p)
       else deduped) ∧
    (∀ (e2 : Bool) (s2 : BlockStreamState), shouldDropFinalPayloads e2 s2 = true ↔
      (e2 = true ∧ s2.didStreamBlockReply = true ∧ s2.blockReplyAborted = false)) ∧
    resolveBlockReplyTimeoutMs none = BLOCK_REPLY_SEND_TIMEOUT_MS ∧
    BLOCK_REPLY_SEND_TIMEOUT_MS = 15000 := by
  have hstep : blockReplyStep (processBlockReplies pre) ⟨key, .timedOut⟩ =
      { processBlockReplies pre with blockReplyAborted := true } := by
    unfold blockReplyStep
    rw [if_neg (by rw [hnotdup]; exact Bool.false_ne_true), if_neg (by rw [hnotab]; exact Bool.false_ne_true)]
  have hfull : processBlockReplies (pre ++ ⟨key, .timedOut⟩ :: post) =
      { processBlockReplies pre with blockReplyAborted := true } := by
    unfold processBlockReplies
    rw [List.foldl_append, List.foldl_cons]
    show List.foldl blockReplyStep
      (blockReplyStep (processBlockReplies pre) ⟨key, .timedOut⟩) post = _
    rw [hstep]
    exact foldl_blockReplyStep_of_aborted post _ rfl
  rw [hfull]
  refine ⟨rfl, rfl, rfl, ?_, ?_, ?_, rfl, rfl⟩
  · simp [shouldDropFinalPayloads]
  · simp [filterFinalPayloads, shouldDropFinalPayloads]
  · intro e2 s2
    simp [shouldDropFinalPayloads, and_assoc]

/-- C8 witness: a three-block trace whose middle block times out; the
first block was delivered, the third is suppressed, and the final
payloads are kept. -/
theorem blockReply_timeout_stops_streaming_witness :
    (processBlockReplies [⟨"a", .delivered⟩, ⟨"b", .timedOut⟩, ⟨"c", .delivered⟩]).deliveredKeys =
      (processBlockReplies [⟨"a", .delivered⟩]).deliveredKeys ∧
    shouldDropFinalPayloads true
      (processBlockReplies [⟨"a", .delivered⟩, ⟨"b", .timedOut⟩, ⟨"c", .delivered⟩]) = false :=
  ⟨(blockReply_timeout_stops_streaming [⟨"a", .delivered⟩] [⟨"c", .delivered⟩] "b" true []
      (by decide) (by decide)).2.1,
   (blockReply_timeout_stops_streaming [⟨"a", .delivered⟩] [⟨"c", .delivered⟩] "b" true []
      (by decide) (by decide)).2.2.2.1⟩

theorem isJsSpace_iff_toNat (c : Char) : isJsSpace c = true ↔
    (c.toNat = 32 ∨ c.toNat = 9 ∨ c.toNat = 10 ∨ c.toNat = 13 ∨ c.toNat = 11 ∨ c.toNat = 12) := by
  have h1 : (' ').toNat = 32 := rfl
  have h2 : ('\t').toNat = 9 := rfl
  have h3 : ('\n').toNat = 10 := rfl
  have h4 : ('\r').toNat = 13 := rfl
  have h5 : ('\x0B').toNat = 11 := rfl
  have h6 : ('\x0C').toNat = 12 := rfl
  simp only [isJsSpace, Bool.or_eq_true, decide_eq_true_eq, char_eq_iff_toNat,
    h1, h2, h3, h4, h5, h6]
  tauto

theorem isJsSpace_toUpper (c : Char) : isJsSpace (Char.toUpper c) = isJsSpace c := by
  have ht := char_toUpper_toNat c
  by_cases h : 97 ≤ c.toNat ∧ c.toNat ≤ 122
  · rw [if_pos h] at ht
    have h1 : isJsSpace (Char.toUpper c) = false := by
      rw [Bool.eq_false_iff]
      intro hx
      have := (isJsSpace_iff_toNat _).mp hx
      omega
    have h2 : isJsSpace c = false := by
      rw [Bool.eq_false_iff]
      intro hx
      have := (isJsSpace_iff_toNat _).mp hx
      omega
    rw [h1, h2]
  · rw [if_neg h] at ht
    rw [(char_eq_iff_toNat _ _).mpr ht]

theorem char_toUpper_idem (c : Char) : Char.toUpper (Char.toUpper c) = Char.toUpper c := by
  rw [char_eq_iff_toNat]
  have h1 := char_toUpper_toNat c
  have h2 := char_toUpper_toNat (Char.toUpper c)
  by_cases h : 97 ≤ c.toNat ∧ c.toNat ≤ 122
  · rw [if_pos h] at h1
    rw [if_neg (by omega)] at h2
    exact h2
  · rw [if_neg h] at h1
    rw [if_neg (by rw [h1]; exact h)] at h2
    exact h2

theorem trimChars_map_toUpper (l : List Char) :
    trimChars (l.map Char.toUpper) = (trimChars l).map Char.toUpper := by
  have hfun : (isJsSpace ∘ Char.toUpper) = isJsSpace := funext isJsSpace_toUpper
  simp only [trimChars, List.dropWhile_map, hfun]
  rw [← List.map_reverse, List.dropWhile_map, hfun, ← List.map_reverse]

theorem jsTrim_toUpperAscii (s : String) :
    jsTrim (toUpperAscii s) = toUpperAscii (jsTrim s) := by
  unfold jsTrim toUpperAscii
  show String.mk (trimChars ((s.data).map Char.toUpper)) = _
  rw [trimChars_map_toUpper]

theorem toUpperAscii_idem (s : String) :
    toUpperAscii (toUpperAscii s) = toUpperAscii s := by
  unfold toUpperAscii
  show String.mk (((s.data).map Char.toUpper).map Char.toUpper) = _
  rw [List.map_map]
  have : (Char.toUpper ∘ Char.toUpper) = Char.toUpper := funext char_toUpper_idem
  rw [this]

theorem toUpperAscii_isEmpty (s : String) : (toUpperAscii s).isEmpty = s.isEmpty := by
  by_cases h : s = ""
  · subst h; rfl
  · have h1 : s.isEmpty = false := by
      rw [Bool.eq_false_iff]
      intro hx
      exact h ((String.isEmpty_iff _).mp hx)
    have h2 : toUpperAscii s ≠ "" := by
      intro hx
      have h3 : s.data.map Char.toUpper = [] := congrArg String.data hx
      have hd : s.data = [] := by
        cases hm : s.data with
        | nil => rfl
        | cons a l => rw [hm] at h3; exact absurd h3 (by simp)
      apply h
      cases s with
      | mk d =>
        simp only at hd
        rw [hd]
    rw [h1, Bool.eq_false_iff]
    intro hx
    exact h2 ((String.isEmpty_iff _).mp hx)

/-- Unfolded form of isDangerousHostEnvVarName. -/
theorem isDangerous_eq (policy : HostEnvSecurityPolicy) (rawKey : String) :
    isDangerousHostEnvVarName policy rawKey =
      (if (jsTrim rawKey).isEmpty then false
       else ((hostDangerousEnvKeys policy).contains (toUpperAscii (jsTrim rawKey)) ||
         (hostDangerousEnvStems policy).any
           (fun stem => strStartsWith (toUpperAscii (jsTrim rawKey)) stem))) := by
  unfold isDangerousHostEnvVarName normalizeEnvVarKey
  by_cases hempty : (jsTrim rawKey).isEmpty = true
  · simp [hempty]
  · simp [hempty]

/-- The dangerous-name check is invariant under uppercasing its argument,
which links the override-phase guard (applied to the uppercased key) to
the stored key. -/
theorem isDangerous_toUpper (policy : HostEnvSecurityPolicy) (key : String) :
    isDangerousHostEnvVarName policy (toUpperAscii key) =
      isDangerousHostEnvVarName policy key := by
  rw [isDangerous_eq, isDangerous_eq, jsTrim_toUpperAscii, toUpperAscii_idem,
    toUpperAscii_isEmpty]

theorem recordSet_keyPred (P : String → Prop) (m : List (String × String)) (k v : String)
    (hm : ∀ e ∈ m, P e.1) (hk : P k) : ∀ e ∈ recordSet m k v, P e.1 := by
  unfold recordSet
  by_cases h : m.any (fun e => e.1 == k) = true
  · rw [if_pos h]
    intro e he
    obtain ⟨a, ha, hae⟩ := List.mem_map.mp he
    by_cases hak : (a.1 == k) = true
    · rw [if_pos hak] at hae
      rw [← hae]
      exact hk
    · rw [if_neg hak] at hae
      rw [← hae]
      exact hm a ha
  · rw [if_neg h]
    intro e he
    rcases List.mem_append.mp he with h1 | h1
    · exact hm e h1
    · rw [List.mem_singleton.mp h1]
      exact hk

theorem find?_map_overwrite_ne (m : List (String × String)) (kp v k : String)
    (h : kp ≠ k) :
    List.find? (fun e => e.1 == k) (m.map (fun e => if e.1 == kp then (kp, v) else e)) =
      List.find? (fun e => e.1 == k) m := by
  induction m with
  | nil => rfl
  | cons a as ih =>
    rw [List.map_cons]
    by_cases hak : (a.1 == kp) = true
    · have ha1 : a.1 = kp := by simpa using hak
      have hn1 : ¬((fun (e : String × String) => e.1 == k) (kp, v) = true) := by
        simp only [beq_iff_eq]
        exact h
      have hn2 : ¬((fun (e : String × String) => e.1 == k) a = true) := by
        simp only [beq_iff_eq, ha1]
        exact h
      rw [if_pos hak,
        @List.find?_cons_of_neg _ (fun e => e.1 == k) (kp, v) _ hn1,
        @List.find?_cons_of_neg _ (fun e => e.1 == k) a _ hn2]
      exact ih
    · rw [if_neg hak]
      by_cases hae : (a.1 == k) = true
      · have hp : (fun (e : String × String) => e.1 == k) a = true := hae
        rw [@List.find?_cons_of_pos _ (fun e => e.1 == k) a _ hp,
          @List.find?_cons_of_pos _ (fun e => e.1 == k) a _ hp]
      · have hn : ¬((fun (e : String × String) => e.1 == k) a = true) := hae
        rw [@List.find?_cons_of_neg _ (fun e => e.1 == k) a _ hn,
          @List.find?_cons_of_neg _ (fun e => e.1 == k) a _ hn]
        exact ih

theorem find?_append_single_ne (m : List (String × String)) (kp v k : String)
    (h : kp ≠ k) :
    List.find? (fun e => e.1 == k) (m ++ [(kp, v)]) =
      List.find? (fun e => e.1 == k) m := by
  induction m with
  | nil =>
    have hn1 : ¬((fun (e : String × String) => e.1 == k) (kp, v) = true) := by
      simp only [beq_iff_eq]
      exact h
    rw [List.nil_append, @List.find?_cons_of_neg _ (fun e => e.1 == k) (kp, v) _ hn1]
  | cons a as ih =>
    rw [List.cons_append]
    by_cases hae : (a.1 == k) = true
    · have hp : (fun (e : String × String) => e.1 == k) a = true := hae
      rw [@List.find?_cons_of_pos _ (fun e => e.1 == k) a _ hp,
        @List.find?_cons_of_pos _ (fun e => e.1 == k) a _ hp]
    · have hn : ¬((fun (e : String × String) => e.1 == k) a = true) := hae
      rw [@List.find?_cons_of_neg _ (fun e => e.1 == k) a _ hn,
        @List.find?_cons_of_neg _ (fun e => e.1 == k) a _ hn]
      exact ih

theorem recordGet_recordSet_ne (m : List (String × String)) (kp v k : String)
    (h : kp ≠ k) : recordGet (recordSet m kp v) k = recordGet m k := by
  unfold recordGet recordSet
  by_cases hany : m.any (fun e => e.1 == kp) = true
  · rw [if_pos hany, find?_map_overwrite_ne m kp v k h]
  · rw [if_neg hany, find?_append_single_ne m kp v k h]

theorem sanitizeBaseStep_safe (policy : HostEnvSecurityPolicy)
    (acc : List (String × String)) (e : String × Option String)
    (hacc : ∀ kv ∈ acc, isDangerousHostEnvVarName policy kv.1 = false) :
    ∀ kv ∈ sanitizeBaseStep policy acc e, isDangerousHostEnvVarName policy kv.1 = false := by
  unfold sanitizeBaseStep
  cases e.2 with
  | none => exact hacc
  | some value =>
    cases hn : normalizeEnvVarKey e.1 true with
    | none => exact hacc
    | some key =>
      dsimp only
      by_cases hd : isDangerousHostEnvVarName policy key = true
      · rw [if_pos hd]; exact hacc
      · rw [if_neg hd]
        exact recordSet_keyPred (fun s => isDangerousHostEnvVarName policy s = false)
          acc key value hacc (Bool.eq_false_iff.mpr hd)

theorem foldl_sanitizeBaseStep_safe (policy : HostEnvSecurityPolicy)
    (l : List (String × Option String)) (acc : List (String × String))
    (hacc : ∀ kv ∈ acc, isDangerousHostEnvVarName policy kv.1 = false) :
    ∀ kv ∈ l.foldl (sanitizeBaseStep policy) acc,
      isDangerousHostEnvVarName policy kv.1 = false := by
  induction l generalizing acc with
  | nil => exact hacc
  | cons a as ih =>
    rw [List.foldl_cons]
    exact ih _ (sanitizeBaseStep_safe policy acc a hacc)

theorem sanitizeOverrideStep_safe (policy : HostEnvSecurityPolicy) (blockPath : Bool)
    (acc : List (String × String)) (e : String × String)
    (hacc : ∀ kv ∈ acc, isDangerousHostEnvVarName policy kv.1 = false) :
    ∀ kv ∈ sanitizeOverrideStep policy blockPath acc e,
      isDangerousHostEnvVarName policy kv.1 = false := by
  unfold sanitizeOverrideStep
  cases hn : normalizeEnvVarKey e.1 true with
  | none => exact hacc
  | some key =>
    dsimp only
    by_cases hpath : (blockPath && toUpperAscii key == "PATH") = true
    · rw [if_pos hpath]; exact hacc
    · rw [if_neg hpath]
      by_cases hd : isDangerousHostEnvVarName policy (toUpperAscii key) = true
      · rw [if_pos hd]; exact hacc
      · rw [if_neg hd]
        have hk : isDangerousHostEnvVarName policy key = false := by
          rw [← isDangerous_toUpper]
          exact Bool.eq_false_iff.mpr hd
        exact recordSet_keyPred (fun s => isDangerousHostEnvVarName policy s = false)
          acc key e.2 hacc hk

theorem foldl_sanitizeOverrideStep_safe (policy : HostEnvSecurityPolicy) (blockPath : Bool)
    (l : List (String × String)) (acc : List (String × String))
    (hacc : ∀ kv ∈ acc, isDangerousHostEnvVarName policy kv.1 = false) :
    ∀ kv ∈ l.foldl (sanitizeOverrideStep policy blockPath) acc,
      isDangerousHostEnvVarName policy kv.1 = false := by
  induction l generalizing acc with
  | nil => exact hacc
  | cons a as ih =>
    rw [List.foldl_cons]
    exact ih _ (sanitizeOverrideStep_safe policy blockPath acc a hacc)

theorem sanitizeOverrideStep_path_stable (policy : HostEnvSecurityPolicy)
    (acc : List (String × String)) (e : String × String) (k : String)
    (hk : toUpperAscii k = "PATH") :
    recordGet (sanitizeOverrideStep policy true acc e) k = recordGet acc k := by
  unfold sanitizeOverrideStep
  cases hn : normalizeEnvVarKey e.1 true with
  | none => rfl
  | some key =>
    dsimp only
    by_cases hpath : (true && toUpperAscii key == "PATH") = true
    · rw [if_pos hpath]
    · rw [if_neg hpath]
      by_cases hd : isDangerousHostEnvVarName policy (toUpperAscii key) = true
      · rw [if_pos hd]
      · rw [if_neg hd]
        apply recordGet_recordSet_ne
        intro hke
        apply hpath
        rw [hke, hk]
        rfl

theorem foldl_sanitizeOverrideStep_path_stable (policy : HostEnvSecurityPolicy)
    (l : List (String × String)) (acc : List (String × String)) (k : String)
    (hk : toUpperAscii k = "PATH") :
    recordGet (l.foldl (sanitizeOverrideStep policy true) acc) k = recordGet acc k := by
  induction l generalizing acc with
  | nil => rfl
  | cons a as ih =>
    rw [List.foldl_cons, ih _, sanitizeOverrideStep_path_stable policy acc a k hk]

/-- C10: the sanitized host exec environment never contains a key that
isDangerousHostEnvVarName classifies as dangerous under the same policy,
for every policy, base environment, overrides map and blockPathOverrides
setting; and with blockPathOverrides at its default of true, every key
whose uppercase form is PATH resolves exactly as it does when the
overrides map is absent, so PATH can only come from the base
environment. -/
theorem sanitizeHostExecEnv_safety (policy : HostEnvSecurityPolicy)
    (baseEnv : List (String × Option String))
    (overrides : Option (List (String × String))) (bpo : Option Bool) :
    (∀ kv ∈ sanitizeHostExecEnv policy baseEnv overrides bpo,
      isDangerousHostEnvVarName policy kv.1 = false) ∧
    (bpo.getD true = true → ∀ k, toUpperAscii k = "PATH" →
      recordGet (sanitizeHostExecEnv policy baseEnv overrides bpo) k =
        recordGet (sanitizeHostExecEnv policy baseEnv none bpo) k) := by
  constructor
  · unfold sanitizeHostExecEnv
    cases overrides with
    | none =>
      exact foldl_sanitizeBaseStep_safe policy baseEnv [] (by intro kv h; cases h)
    | some ov =>
      exact foldl_sanitizeOverrideStep_safe policy _ ov _
        (foldl_sanitizeBaseStep_safe policy baseEnv [] (by intro kv h; cases h))
  · intro hbp k hk
    unfold sanitizeHostExecEnv
    cases overrides with
    | none => rfl
    | some ov =>
      rw [hbp]
      exact foldl_sanitizeOverrideStep_path_stable policy ov _ k hk

/-- C10 witness: a concrete policy and environment; the override PATH is
ignored and the base PATH survives. -/
theorem sanitizeHostExecEnv_safety_witness :
    recordGet (sanitizeHostExecEnv
        ⟨["BASH_ENV", "LD_PRELOAD"], ["DYLD_", "BASH_FUNC_"]⟩
        [("PATH", some "/usr/bin:/bin"), ("LD_PRELOAD", some "/tmp/pwn.so"), ("OK", some "1")]
        (some [("PATH", "/evil"), ("FOO", "bar")]) none) "PATH" =
      recordGet (sanitizeHostExecEnv
        ⟨["BASH_ENV", "LD_PRELOAD"], ["DYLD_", "BASH_FUNC_"]⟩
        [("PATH", some "/usr/bin:/bin"), ("LD_PRELOAD", some "/tmp/pwn.so"), ("OK", some "1")]
        none none) "PATH" :=
  (sanitizeHostExecEnv_safety
      ⟨["BASH_ENV", "LD_PRELOAD"], ["DYLD_", "BASH_FUNC_"]⟩
      [("PATH", some "/usr/bin:/bin"), ("LD_PRELOAD", some "/tmp/pwn.so"), ("OK", some "1")]
      (some [("PATH", "/evil"), ("FOO", "bar")]) none).2 rfl "PATH" (by decide)

/-- C3: for every existing entry, sessions.reset responds with an entry
whose sessionId is the freshly minted id (distinct from the prior one as
long as the UUID generator does not return the stored id), preserves
sendPolicy, thinkingLevel and skillsSnapshot, and sets systemSent and
abortedLastRun to false. -/
theorem sessionsReset_mints_and_preserves
    (store : SessionStore) (storeKeys : List String) (rawKey freshId : String)
    (now : Int) (entry : SessionEntry)
    (hkey : (jsTrim rawKey).isEmpty = false)
    (hentry : storeGet
        (migrateStoreKeys store storeKeys (resolvePrimaryKey storeKeys (jsTrim rawKey)))
        (resolvePrimaryKey storeKeys (jsTrim rawKey)) = some entry)
    (hfresh : freshId ≠ entry.sessionId) :
    (sessionsResetEntry store storeKeys rawKey freshId now).map (·.sessionId) = some freshId ∧
    freshId ≠ entry.sessionId ∧
    (sessionsResetEntry store storeKeys rawKey freshId now).map (·.sendPolicy) =
      some entry.sendPolicy ∧
    (sessionsResetEntry store storeKeys rawKey freshId now).map (·.thinkingLevel) =
      some entry.thinkingLevel ∧
    (sessionsResetEntry store storeKeys rawKey freshId now).map (·.skillsSnapshot) =
      some entry.skillsSnapshot ∧
    (sessionsResetEntry store storeKeys rawKey freshId now).map (·.systemSent) =
      some (some false) ∧
    (sessionsResetEntry store storeKeys rawKey freshId now).map (·.abortedLastRun) =
      some (some false) := by
  have hres : sessionsResetEntry store storeKeys rawKey freshId now =
      some { sessionId := freshId
             updatedAt := now
             systemSent := some false
             abortedLastRun := some false
             thinkingLevel := entry.thinkingLevel
             verboseLevel := entry.verboseLevel
             reasoningLevel := entry.reasoningLevel
             responseUsage := entry.responseUsage
             model := entry.model
             contextTokens := entry.contextTokens
             sendPolicy := entry.sendPolicy
             lastProvider := entry.lastProvider
             lastTo := entry.lastTo
             skillsSnapshot := entry.skillsSnapshot } := by
    unfold sessionsResetEntry sessionsReset
    simp only [hkey, Bool.false_eq_true, if_false, hentry, Option.some_bind]
  rw [hres]
  exact ⟨rfl, hfresh, rfl, rfl, rfl, rfl, rfl⟩

/-- C3 witness: a concrete store entry with preferences set and stale run
flags; reset keeps the preferences and clears the flags. -/
theorem sessionsReset_mints_and_preserves_witness :
    (sessionsResetEntry
        [("agent:main:subagent:w",
          { sessionId := "old-id", updatedAt := 1,
            thinkingLevel := some "high", sendPolicy := some "deny",
            skillsSnapshot := some "snap",
            systemSent := some true, abortedLastRun := some true })]
        ["agent:main:subagent:w"] "agent:main:subagent:w" "new-id" 2).map (·.sessionId) =
      some "new-id" ∧
    (sessionsResetEntry
        [("agent:main:subagent:w",
          { sessionId := "old-id", updatedAt := 1,
            thinkingLevel := some "high", sendPolicy := some "deny",
            skillsSnapshot := some "snap",
            systemSent := some true, abortedLastRun := some true })]
        ["agent:main:subagent:w"] "agent:main:subagent:w" "new-id" 2).map (·.sendPolicy) =
      some (some "deny") :=
  have h := sessionsReset_mints_and_preserves
    [("agent:main:subagent:w",
      { sessionId := "old-id", updatedAt := 1,
        thinkingLevel := some "high", sendPolicy := some "deny",
        skillsSnapshot := some "snap",
        systemSent := some true, abortedLastRun := some true })]
    ["agent:main:subagent:w"] "agent:main:subagent:w" "new-id" 2
    { sessionId := "old-id", updatedAt := 1,
      thinkingLevel := some "high", sendPolicy := some "deny",
      skillsSnapshot := some "snap",
      systemSent := some true, abortedLastRun := some true }
    (by decide) (by decide) (by decide)
  ⟨h.1, h.2.2.1⟩

theorem except_bind_error {ε α β : Type} (e : ε) (f : α → Except ε β) :
    ((Except.error e : Except ε α) >>= f) = Except.error e := rfl

/-- When the spawnedBy block errors, it errors for every merged entry. -/
theorem applySpawnedBy_error_cleared (existing : Option SessionEntry) (primaryKey : String)
    (hset : (spawnedBySet existing).isSome = true) :
    ∀ next, applySpawnedBy (some none) existing primaryKey next =
      .error "spawnedBy cannot be cleared once set" := by
  intro next
  unfold applySpawnedBy
  rw [if_pos hset]

theorem applySpawnedBy_error_changed (existing : Option SessionEntry) (primaryKey : String)
    (s v : String) (hset : spawnedBySet existing = some s)
    (hv : (jsTrim v).isEmpty = false)
    (hsub : isSubagentSessionKey (some primaryKey) = true)
    (hne : s ≠ jsTrim v) :
    ∀ next, applySpawnedBy (some (some v)) existing primaryKey next =
      .error "spawnedBy cannot be changed once set" := by
  intro next
  unfold applySpawnedBy
  dsimp only
  rw [if_neg (by rw [hv]; exact Bool.false_ne_true), if_neg (by rw [hsub]; simp), hset]
  dsimp only
  rw [if_pos hne]

theorem applySpawnedBy_error_not_subagent (existing : Option SessionEntry) (primaryKey : String)
    (v : String) (hv : (jsTrim v).isEmpty = false)
    (hsub : isSubagentSessionKey (some primaryKey) = false) :
    ∀ next, applySpawnedBy (some (some v)) existing primaryKey next =
      .error "spawnedBy is only supported for subagent:* sessions" := by
  intro next
  unfold applySpawnedBy
  dsimp only
  rw [if_neg (by rw [hv]; exact Bool.false_ne_true), if_pos (by rw [hsub]; rfl)]

/-- C4: sessions.patch treats spawnedBy as write-once: clearing it while
set, changing it to a different non-empty value, or setting it on a key
that is not a subagent key each yield a validation error, and in every
such case the handler responds before saveSessionStore runs, so the
persisted store is exactly the input store. -/
theorem sessionsPatch_spawnedBy_write_once (deps : PatchDeps) (store : SessionStore)
    (storeKeys : List String) (p : SessionsPatchParams) (freshId : String) (now : Int)
    (hkey : (jsTrim p.key).isEmpty = false) :
    ((spawnedBySet (storeGet
          (migrateStoreKeys store storeKeys (resolvePrimaryKey storeKeys (jsTrim p.key)))
          (resolvePrimaryKey storeKeys (jsTrim p.key)))).isSome = true →
      p.spawnedBy = some none →
      sessionsPatch deps store storeKeys p freshId now =
        .error "spawnedBy cannot be cleared once set" ∧
      patchPersistedStore deps store storeKeys p freshId now = store) ∧
    (∀ s v, spawnedBySet (storeGet
          (migrateStoreKeys store storeKeys (resolvePrimaryKey storeKeys (jsTrim p.key)))
          (resolvePrimaryKey storeKeys (jsTrim p.key))) = some s →
      p.spawnedBy = some (some v) → (jsTrim v).isEmpty = false →
      isSubagentSessionKey (some (resolvePrimaryKey storeKeys (jsTrim p.key))) = true →
      s ≠ jsTrim v →
      sessionsPatch deps store storeKeys p freshId now =
        .error "spawnedBy cannot be changed once set" ∧
      patchPersistedStore deps store storeKeys p freshId now = store) ∧
    (∀ v, p.spawnedBy = some (some v) → (jsTrim v).isEmpty = false →
      isSubagentSessionKey (some (resolvePrimaryKey storeKeys (jsTrim p.key))) = false →
      sessionsPatch deps store storeKeys p freshId now =
        .error "spawnedBy is only supported for subagent:* sessions" ∧
      patchPersistedStore deps store storeKeys p freshId now = store) := by
  have hbody : ∀ (msg : String),
      (∀ next, applySpawnedBy p.spawnedBy
          (storeGet (migrateStoreKeys store storeKeys
              (resolvePrimaryKey storeKeys (jsTrim p.key)))
            (resolvePrimaryKey storeKeys (jsTrim p.key)))
          (resolvePrimaryKey storeKeys (jsTrim p.key)) next = .error msg) →
      sessionsPatch deps store storeKeys p freshId now = .error msg := by
    intro msg happly
    unfold sessionsPatch
    simp only [hkey, Bool.false_eq_true, if_false, happly, except_bind_error]
    rfl
  refine ⟨?_, ?_, ?_⟩
  · intro hset hp
    have herr := hbody "spawnedBy cannot be cleared once set"
      (by rw [hp]; exact applySpawnedBy_error_cleared _ _ hset)
    refine ⟨herr, ?_⟩
    unfold patchPersistedStore
    rw [herr]
  · intro s v hset hp hv hsub hne
    have herr := hbody "spawnedBy cannot be changed once set"
      (by rw [hp]; exact applySpawnedBy_error_changed _ _ s v hset hv hsub hne)
    refine ⟨herr, ?_⟩
    unfold patchPersistedStore
    rw [herr]
  · intro v hp hv hsub
    have herr := hbody "spawnedBy is only supported for subagent:* sessions"
      (by rw [hp]; exact applySpawnedBy_error_not_subagent _ _ v hv hsub)
    refine ⟨herr, ?_⟩
    unfold patchPersistedStore
    rw [herr]

/-- C4 witness: clearing a set spawnedBy on a concrete subagent entry
errors and leaves the store as loaded. -/
theorem sessionsPatch_spawnedBy_write_once_witness :
    sessionsPatch
        ⟨{}, [], "prov", "model", fun _ => none, fun _ => none, fun _ => none,
          fun _ => none, fun _ => none, fun _ => none⟩
        [("subagent:w", { sessionId := "sid", updatedAt := 1, spawnedBy := some "agent:main:main" })]
        ["subagent:w"] { key := "subagent:w", spawnedBy := some none } "f" 2 =
      .error "spawnedBy cannot be cleared once set" ∧
    patchPersistedStore
        ⟨{}, [], "prov", "model", fun _ => none, fun _ => none, fun _ => none,
          fun _ => none, fun _ => none, fun _ => none⟩
        [("subagent:w", { sessionId := "sid", updatedAt := 1, spawnedBy := some "agent:main:main" })]
        ["subagent:w"] { key := "subagent:w", spawnedBy := some none } "f" 2 =
      [("subagent:w", { sessionId := "sid", updatedAt := 1, spawnedBy := some "agent:main:main" })] :=
  (sessionsPatch_spawnedBy_write_once
      ⟨{}, [], "prov", "model", fun _ => none, fun _ => none, fun _ => none,
        fun _ => none, fun _ => none, fun _ => none⟩
      [("subagent:w", { sessionId := "sid", updatedAt := 1, spawnedBy := some "agent:main:main" })]
      ["subagent:w"] { key := "subagent:w", spawnedBy := some none } "f" 2
      (by decide)).1 (by decide) rfl

theorem setAdd_contains_self (s : List String) (x : String) :
    (setAdd s x).contains x = true := by
  unfold setAdd
  by_cases h : s.contains x = true
  · rw [if_pos h]
    exact h
  · rw [if_neg h]
    have hmem : x ∈ s ++ [x] := List.mem_append_right s (List.mem_singleton_self x)
    exact List.elem_eq_true_of_mem hmem

/-- C5: the configured default model key is always in the allowed key
set, whatever the allowlist and catalog contain; if a non-empty allowlist
validates to an empty allowed catalog the function fails open with
allowAny true; and on the concrete example an allowlist of only
openai/gpt-4 with default claude-cli/opus-4.5 allows both keys and not
openai/gpt-3.5. -/
theorem buildAllowedModelSet_default_and_fail_open
    (cfg : ClawdbotConfig) (catalog : List ModelCatalogEntry) (dp dm : String)
    (hdm : (jsTrim dm).isEmpty = false) (hdp : dp.isEmpty = false) :
    (buildAllowedModelSet cfg catalog dp (some dm)).allowedKeys.contains
        (modelKey dp (jsTrim dm)) = true ∧
    ((((cfg.agent.map (·.models)).join).getD []).map (·.1) ≠ [] →
      allowlistValidatedCatalog cfg catalog dp (some dm) = [] →
      (buildAllowedModelSet cfg catalog dp (some dm)).allowAny = true) ∧
    ((buildAllowedModelSet
        { agent := some { models := some [("openai/gpt-4", { aliasName := some "gpt4" })] } }
        [⟨"openai", "gpt-4"⟩, ⟨"openai", "gpt-3.5"⟩]
        "claude-cli" (some "opus-4.5")).allowedKeys.contains "openai/gpt-4" = true ∧
      (buildAllowedModelSet
        { agent := some { models := some [("openai/gpt-4", { aliasName := some "gpt4" })] } }
        [⟨"openai", "gpt-4"⟩, ⟨"openai", "gpt-3.5"⟩]
        "claude-cli" (some "opus-4.5")).allowedKeys.contains "claude-cli/opus-4.5" = true ∧
      (buildAllowedModelSet
        { agent := some { models := some [("openai/gpt-4", { aliasName := some "gpt4" })] } }
        [⟨"openai", "gpt-4"⟩, ⟨"openai", "gpt-3.5"⟩]
        "claude-cli" (some "opus-4.5")).allowedKeys.contains "openai/gpt-3.5" = false ∧
      (buildAllowedModelSet
        { agent := some { models := some [("openai/gpt-4", { aliasName := some "gpt4" })] } }
        [⟨"openai", "gpt-4"⟩, ⟨"openai", "gpt-3.5"⟩]
        "claude-cli" (some "opus-4.5")).allowAny = false) := by
  have hdk : allowedDefaultKey dp (some dm) = some (modelKey dp (jsTrim dm)) := by
    unfold allowedDefaultKey
    simp [hdm, hdp]
  refine ⟨?_, ?_, by decide, by decide, by decide, by decide⟩
  · unfold buildAllowedModelSet
    rw [hdk]
    dsimp only
    split
    · exact setAdd_contains_self _ _
    · unfold allowlistAllowedKeys
      rw [hdk]
      dsimp only
      split
      · exact setAdd_contains_self _ _
      · exact setAdd_contains_self _ _
  · intro hne hcat
    unfold allowlistValidatedCatalog allowlistAllowedKeys at hcat
    unfold buildAllowedModelSet allowlistAllowedKeys
    rw [if_neg (by
      intro hx
      exact hne (by simpa using hx))]
    rw [if_pos (by rw [hcat]; rfl)]

/-- C5 witness: the general default-inclusion part applied to the
concrete example configuration. -/
theorem buildAllowedModelSet_default_and_fail_open_witness :
    (buildAllowedModelSet
        { agent := some { models := some [("openai/gpt-4", { aliasName := some "gpt4" })] } }
        [⟨"openai", "gpt-4"⟩, ⟨"openai", "gpt-3.5"⟩]
        "claude-cli" (some "opus-4.5")).allowedKeys.contains
      (modelKey "claude-cli" (jsTrim "opus-4.5")) = true :=
  (buildAllowedModelSet_default_and_fail_open
      { agent := some { models := some [("openai/gpt-4", { aliasName := some "gpt4" })] } }
      [⟨"openai", "gpt-4"⟩, ⟨"openai", "gpt-3.5"⟩]
      "claude-cli" "opus-4.5" (by decide) (by decide)).1

end Moltbot
